import Mathlib

/-!
Verification of the codegraph repository against its specification.

The visible sources (src/frontend) contain only the UI layer: the data
model types (settingsStore.ts / types), the API client (client.ts) and the
chat state store (chatStore.ts).  The core engine (entity extraction,
relationship building, graph store, embedding index, retrieval-reasoning
loop, answer composer) is, per the specification itself, not present in the
visible sources; those parts are modelled from the spec below, each marked
`Modelled from the spec:` in its doc comment.  `updateLastAssistantMessage`
is embedded directly from src/frontend/src/stores/chatStore.ts.
-/

namespace CodeGraph

/-- Entity type, from the spec data model §3:
`type ∈ {module, class, function, method, variable, import}`. -/
inductive EntityType where
  | module
  | cls
  | function
  | method
  | variable
  | imported
deriving DecidableEq, Repr

/-- Graph node / Entity, mirroring `GraphNode` in
src/frontend/src/types (settingsStore.ts part) and §3 of the spec. -/
structure Entity where
  id : String
  type : EntityType
  name : String
  file_path : String
  start_line : Nat
  end_line : Nat
  signature : Option String := none
  docstring : Option String := none
deriving DecidableEq, Repr

/-- Edge type, from the spec data model §3:
`type ∈ {contains, calls, imports, inherits, references}`. -/
inductive EdgeType where
  | contains
  | calls
  | imports
  | inherits
  | references
deriving DecidableEq, Repr

/-- Graph edge, mirroring `GraphEdge` in src/frontend/src/types and §3. -/
structure Edge where
  source : String
  target : String
  type : EdgeType
deriving DecidableEq, Repr

/-- A graph snapshot: entities plus typed directed edges (§3, §4.3). -/
structure Graph where
  entities : List Entity
  edges : List Edge
deriving DecidableEq, Repr

/-- Citation, mirroring `Citation` in src/frontend/src/types and §3. -/
structure Citation where
  file_path : String
  start_line : Nat
  end_line : Nat
  content : String
  node_type : Option String := none
  node_name : Option String := none
deriving DecidableEq, Repr

/-- Reasoning step, mirroring `ReasoningStep` in src/frontend/src/types
and §3. -/
structure ReasoningStep where
  step_number : Nat
  action : String
  node_visited : Option String := none
  observation : Option String := none
deriving DecidableEq, Repr

/-- Query response, mirroring `QueryResponse` in src/frontend/src/types
and §3 (optional accounting fields omitted: no claim concerns them). -/
structure QueryResponse where
  answer : String
  citations : List Citation
  reasoning_steps : List ReasoningStep
  confidence : Rat
deriving DecidableEq, Repr

/-- Message role, from `ChatMessage.role : 'user' | 'assistant'` in
src/frontend/src/types. -/
inductive Role where
  | user
  | assistant
deriving DecidableEq, Repr

/-- Chat message, mirroring `ChatMessage` in src/frontend/src/types
(timestamp modelled as a Nat tick). -/
structure ChatMessage where
  id : String
  role : Role
  content : String
  citations : Option (List Citation) := none
  reasoning_steps : Option (List ReasoningStep) := none
  timestamp : Nat
deriving DecidableEq, Repr

/-- Embedded from src/frontend/src/stores/chatStore.ts,
`updateLastAssistantMessage` (lines 38–51): copy the message list, look at
the last index; only when it exists and holds an assistant message,
replace that element with a copy whose `content`, `citations` and
`reasoning_steps` come from the response. -/
def updateLastAssistantMessage (messages : List ChatMessage)
    (response : QueryResponse) : List ChatMessage :=
  match messages.getLast? with
  | none => messages
  | some last =>
    if last.role = Role.assistant then
      messages.set (messages.length - 1)
        { last with
          content := response.answer
          citations := some response.citations
          reasoning_steps := some response.reasoning_steps }
    else
      messages

/-- Modelled from the spec: a checked-out source file (path → content, plus
the language tag of §4.1); the repository cloning that produces it is an
external collaborator (§6). -/
structure SourceFile where
  path : String
  content : String
  lang : String
deriving DecidableEq, Repr

/-- Modelled from the spec (§7): per-file parse error, recorded and
recovered from during an indexing run. -/
structure ParseError where
  file_path : String
  message : String
deriving DecidableEq, Repr

/-- Modelled from the spec (§7): repository-level indexing error
(empty or unreadable tree), fatal to that run. -/
inductive IndexError where
  | emptyTree
deriving DecidableEq, Repr

/-- Modelled from the spec (§3): the stable deterministic entity id derived
from file path + qualified name + span (an injective encoding stands in for
the hash). -/
def entityId (fp qualName : String) (s e : Nat) : String :=
  fp ++ ":" ++ qualName ++ ":" ++ toString s ++ "-" ++ toString e

/-- Modelled from the spec (§4.2): a call site found in the raw source
text — a line in a file referencing a callee name, input to name
resolution. -/
structure CallSite where
  file_path : String
  line : Nat
  callee : String
deriving DecidableEq, Repr

/-- Span length of an entity, used to pick the innermost enclosing span. -/
def spanLen (e : Entity) : Nat := e.end_line - e.start_line

/-- Modelled from the spec (§4.2): `inner` lies properly inside `outer`
(same file, span contained and strictly smaller, distinct entities). -/
def strictlyInside (inner outer : Entity) : Bool :=
  inner.file_path == outer.file_path &&
  decide (outer.start_line ≤ inner.start_line) &&
  decide (inner.end_line ≤ outer.end_line) &&
  (decide (outer.start_line < inner.start_line) ||
   decide (inner.end_line < outer.end_line)) &&
  inner.id != outer.id

/-- Of two candidate parents, keep the one with the smaller span
(tie-broken by lexicographically smaller id, for determinism §4.2). -/
def innerMost (a b : Entity) : Entity :=
  if spanLen b < spanLen a ∨ (spanLen b = spanLen a ∧ b.id < a.id) then b else a

/-- Pick the innermost entity of a candidate list, if any. -/
def pickInnermost : List Entity → Option Entity
  | [] => none
  | e :: es => some (es.foldl innerMost e)

/-- Modelled from the spec (§4.2): the unique `contains` parent of an
entity is the smallest properly-enclosing entity, tie-broken by innermost
span. -/
def containsParent (ents : List Entity) (e : Entity) : Option Entity :=
  pickInnermost (ents.filter (fun p => strictlyInside e p))

/-- Modelled from the spec (§4.2): containment edges derived structurally
from span nesting. -/
def containsEdges (ents : List Entity) : List Edge :=
  ents.filterMap (fun e =>
    (containsParent ents e).map (fun p =>
      { source := p.id, target := e.id, type := EdgeType.contains }))

/-- Modelled from the spec (§4.2): the smallest entity of the file whose
span covers the given line — the entity a call site belongs to. -/
def enclosingAt (ents : List Entity) (fp : String) (line : Nat) :
    Option Entity :=
  pickInnermost (ents.filter (fun e =>
    e.file_path == fp && decide (e.start_line ≤ line) &&
    decide (line ≤ e.end_line)))

/-- Modelled from the spec (§4.2): name resolution within the file; when
the target is not uniquely resolvable locally, no edge is emitted rather
than guessed. -/
def resolveName (ents : List Entity) (fp nm : String) : Option Entity :=
  match ents.filter (fun e => e.file_path == fp && e.name == nm) with
  | [e] => some e
  | _ => none

/-- Modelled from the spec (§4.2): call edges derived from name resolution
of call sites; unresolvable sites emit no edge; self-loops are disallowed
(§3). -/
def callEdges (ents : List Entity) (sites : List CallSite) : List Edge :=
  sites.filterMap (fun cs =>
    match enclosingAt ents cs.file_path cs.line,
          resolveName ents cs.file_path cs.callee with
    | some caller, some callee =>
      if caller.id = callee.id then none
      else some { source := caller.id, target := callee.id,
                  type := EdgeType.calls }
    | _, _ => none)

/-- True when some entity of the list carries the given id. -/
def hasEntity (ents : List Entity) (nid : String) : Bool :=
  ents.any (fun e => e.id == nid)

/-- Modelled from the spec (§3, §4.3): building a snapshot drops, at build
time, every edge referencing a non-existent entity id, and every
self-loop. -/
def buildSnapshot (ents : List Entity) (raw : List Edge) : Graph :=
  { entities := ents
    edges := raw.filter (fun e =>
      hasEntity ents e.source && hasEntity ents e.target &&
      e.source != e.target) }

/-- Modelled from the spec (§3): one embedding record per entity — the
entity id, the vector, and the text that was embedded. -/
structure EmbRecord where
  entityId : String
  vector : List Rat
  text : String
deriving DecidableEq, Repr

/-- Modelled from the spec (§2): the text embedded for an entity is derived
from its signature, docstring and name. -/
def entityText (e : Entity) : String :=
  e.name ++ " " ++ e.signature.getD "" ++ " " ++ e.docstring.getD ""

/-- Modelled from the spec (§4.1, §7): extract every file, skipping files
whose extraction fails and recording their `ParseError` — a per-file
failure never aborts the run. -/
def extractAll (ext : SourceFile → Except ParseError (List Entity)) :
    List SourceFile → List Entity × List ParseError
  | [] => ([], [])
  | f :: fs =>
    let rest := extractAll ext fs
    match ext f with
    | Except.ok es => (es ++ rest.1, rest.2)
    | Except.error pe => (rest.1, pe :: rest.2)

/-- Result of one indexing run: the graph snapshot, the embedding records
and the recorded per-file errors (partial success is representable, §7). -/
structure IndexResult where
  snapshot : Graph
  embeddings : List EmbRecord
  errors : List ParseError
deriving DecidableEq, Repr

/-- Modelled from the spec (§2, §4.1–§4.3, §7): the indexing pipeline.
Extraction is language-specific, so the extractor `ext` and the call-site
scanner `callSitesOf` are parameters (capability-polymorphic, §9), as is
the embedding function `embedText` (an external capability).  An empty
tree is an `IndexError`; otherwise extraction errors are aggregated,
relationship edges are derived, and dangling edges are dropped at build
time. -/
def indexPipeline (ext : SourceFile → Except ParseError (List Entity))
    (embedText : String → List Rat)
    (callSitesOf : SourceFile → List CallSite)
    (files : List SourceFile) : Except IndexError IndexResult :=
  if files.isEmpty then Except.error IndexError.emptyTree
  else
    let er := extractAll ext files
    let ents := er.1
    let sites := files.flatMap callSitesOf
    let snapshot := buildSnapshot ents (containsEdges ents ++ callEdges ents sites)
    Except.ok
      { snapshot := snapshot
        embeddings := ents.map (fun e =>
          { entityId := e.id, vector := embedText (entityText e),
            text := entityText e })
        errors := er.2 }

/-- Traversal direction of `neighbors` (§4.3): `out`, `in`, or `both`. -/
inductive Direction where
  | dOut
  | dIn
  | dBoth
deriving DecidableEq, Repr

/-- `get_node` of the Graph Store (§4.3): the entity with the given id,
`none` standing for `NotFound`. -/
def findNode (g : Graph) (nid : String) : Option Entity :=
  g.entities.find? (fun e => e.id == nid)

/-- Boolean membership test for id lists. -/
def memb (x : String) (l : List String) : Bool :=
  l.any (fun y => x == y)

/-- Remove duplicate ids, keeping first occurrences. -/
def dedupIds : List String → List String
  | [] => []
  | x :: xs => if memb x xs then dedupIds xs else x :: dedupIds xs

/-- Ids one matching hop away from `nid`, following only the requested
edge types and direction (§4.3). -/
def stepTargets (g : Graph) (ets : List EdgeType) (dir : Direction)
    (nid : String) : List String :=
  let outs := (g.edges.filter (fun e =>
    e.source == nid && ets.contains e.type)).map (fun e => e.target)
  let ins := (g.edges.filter (fun e =>
    e.target == nid && ets.contains e.type)).map (fun e => e.source)
  match dir with
  | Direction.dOut => outs
  | Direction.dIn => ins
  | Direction.dBoth => outs ++ ins

/-- Matching edges incident to the current frontier, reported alongside the
layer they were followed from. -/
def frontierEdges (g : Graph) (ets : List EdgeType) (dir : Direction)
    (frontier : List String) : List Edge :=
  g.edges.filter (fun e =>
    ets.contains e.type &&
    match dir with
    | Direction.dOut => memb e.source frontier
    | Direction.dIn => memb e.target frontier
    | Direction.dBoth => memb e.source frontier || memb e.target frontier)

/-- The nodes newly discovered by one breadth-first hop: matching 1-hop
targets of the frontier that exist in the graph and are not in the visited
set, deduplicated. -/
def bfsNext (g : Graph) (ets : List EdgeType) (dir : Direction)
    (frontier visited : List String) : List String :=
  dedupIds ((frontier.flatMap (stepTargets g ets dir)).filter
    (fun t => !(memb t visited) && (findNode g t).isSome))

/-- Modelled from the spec (§4.3): breadth-first traversal with a
visited set.  Each recursive step produces the layer of newly discovered
node ids (never revisiting the visited set) together with the edges
followed, stopping when no new node is discovered or the hop budget is
exhausted. -/
def bfsAux (g : Graph) (ets : List EdgeType) (dir : Direction) :
    Nat → List String → List String → List (List String × List Edge)
  | 0, _, _ => []
  | Nat.succ k, frontier, visited =>
    if (bfsNext g ets dir frontier visited).isEmpty then []
    else
      (bfsNext g ets dir frontier visited,
       frontierEdges g ets dir frontier) ::
        bfsAux g ets dir k (bfsNext g ets dir frontier visited)
          (visited ++ bfsNext g ets dir frontier visited)

/-- The id layers of a breadth-first `neighbors` traversal from `st`:
layer 0 is the queried node itself, layer `i+1` the nodes first reached in
hop `i+1`. -/
def neighborsLayers (g : Graph) (ets : List EdgeType) (dir : Direction)
    (st : Entity) (depth : Nat) : List (List String) :=
  [st.id] :: (bfsAux g ets dir depth [st.id] [st.id]).map (fun p => p.1)

/-- Modelled from the spec (§4.3): `neighbors(id, edge_types, direction,
depth)` — nodes reachable within `depth` hops following only the requested
edge types and direction, breadth-first with a visited set, plus the edges
followed; `none` stands for `NotFound` on an absent id. -/
def neighborsOp (g : Graph) (nid : String) (ets : List EdgeType)
    (dir : Direction) (depth : Nat) : Option (List Entity × List Edge) :=
  (findNode g nid).map (fun st =>
    ((neighborsLayers g ets dir st depth).flatten.filterMap (findNode g),
     (bfsAux g ets dir depth [st.id] [st.id]).flatMap (fun p => p.2)))

/-- Printable name of an edge type, used in reasoning-step actions. -/
def edgeTypeName : EdgeType → String
  | EdgeType.contains => "contains"
  | EdgeType.calls => "calls"
  | EdgeType.imports => "imports"
  | EdgeType.inherits => "inherits"
  | EdgeType.references => "references"

/-- Printable name of an entity type, used in citations. -/
def entityTypeName : EntityType → String
  | EntityType.module => "module"
  | EntityType.cls => "class"
  | EntityType.function => "function"
  | EntityType.method => "method"
  | EntityType.variable => "variable"
  | EntityType.imported => "import"

/-- Modelled from the spec (§4.4): tunable policy parameters of the
reasoning loop — hop budget `H`, frontier width `W`, the blend weight
between similarity and edge-type relevance, the relevance and
high-confidence thresholds, the early-stop confidence penalty, and the
edge-type relevance weights (§9: policy parameters, not constants). -/
structure QueryConfig where
  H : Nat
  W : Nat
  alpha : Rat
  minRelevance : Rat
  highConfidence : Rat
  stopPenalty : Rat
  edgeWeight : EdgeType → Rat

/-- Modelled from the spec (§2, §3): the Embedding Index — one embedding
record per entity. -/
structure EmbIndex where
  records : List EmbRecord
deriving DecidableEq, Repr

/-- Modelled from the spec (§4.3, §9): per-repository committed snapshots
of the Graph Store and the Embedding Index, keyed by repository id. -/
structure RepoStore where
  graphs : List (String × Graph)
  indexes : List (String × EmbIndex)
deriving DecidableEq, Repr

/-- The committed graph snapshot of a repository, if one exists. -/
def lookupGraph (s : RepoStore) (rid : String) : Option Graph :=
  (s.graphs.find? (fun p => p.1 == rid)).map (fun p => p.2)

/-- The committed embedding index of a repository, if one exists. -/
def lookupIndex (s : RepoStore) (rid : String) : Option EmbIndex :=
  (s.indexes.find? (fun p => p.1 == rid)).map (fun p => p.2)

/-- Similarity of an entity's stored vector to the question vector; `sim`
abstracts the cosine-similarity metric (the spec treats embedding as an
external capability and no claim depends on the metric itself). -/
def entitySim (idx : EmbIndex) (sim : List Rat → List Rat → Rat)
    (qvec : List Rat) (eid : String) : Rat :=
  match idx.records.find? (fun r => r.entityId == eid) with
  | some r => sim qvec r.vector
  | none => 0

/-- A scored candidate of the reasoning loop: the entity, its blended
score, and the edge it was reached through (`none` for seeds). -/
structure Cand where
  ent : Entity
  score : Rat
  via : Option (EdgeType × String)
deriving DecidableEq, Repr

/-- Modelled from the spec (§4.4): the candidate preference order —
higher score first; on a score tie, the lexicographically smaller entity
id is preferred. -/
def candLE (a b : Cand) : Prop :=
  b.score < a.score ∨ (b.score = a.score ∧ a.ent.id ≤ b.ent.id)

instance : DecidableRel candLE := fun a b => by
  unfold candLE; infer_instance

instance : IsTotal Cand candLE := by
  refine ⟨fun a b => ?_⟩
  rcases lt_trichotomy a.score b.score with h | h | h
  · exact Or.inr (Or.inl h)
  · rcases le_total a.ent.id b.ent.id with h2 | h2
    · exact Or.inl (Or.inr ⟨h.symm, h2⟩)
    · exact Or.inr (Or.inr ⟨h, h2⟩)
  · exact Or.inl (Or.inl h)

instance : IsTrans Cand candLE := by
  refine ⟨fun a b c hab hbc => ?_⟩
  rcases hab with h1 | ⟨h1, h1'⟩ <;> rcases hbc with h2 | ⟨h2, h2'⟩
  · exact Or.inl (lt_trans h2 h1)
  · exact Or.inl (h2 ▸ h1)
  · exact Or.inl (h1 ▸ h2)
  · exact Or.inr ⟨h2.trans h1, le_trans h1' h2'⟩

/-- Modelled from the spec (§4.4): keep the top-`w` candidates by score,
tie-broken by lexicographically smaller entity id. -/
def selectTop (w : Nat) (cands : List Cand) : List Cand :=
  (List.insertionSort candLE cands).take w

/-- The action text of a reasoning step for a candidate (§4.4: "seeded
from similarity search" for seeds, "expanded via <edge type> from
<source>" for hop candidates). -/
def actionOf (c : Cand) : String :=
  match c.via with
  | none => "seeded from similarity search"
  | some (et, src) => "expanded via " ++ edgeTypeName et ++ " from " ++ src

/-- One reasoning step per accepted candidate, numbered from `n`. -/
def stepsFor (n : Nat) : List Cand → List ReasoningStep
  | [] => []
  | c :: cs =>
    { step_number := n, action := actionOf c,
      node_visited := some c.ent.id, observation := none } :: stepsFor (n + 1) cs

/-- Append entities to the citation list, deduplicated by entity id in
first-used order (§3). -/
def appendNewById (cited : List Entity) : List Entity → List Entity
  | [] => cited
  | e :: es =>
    if memb e.id (cited.map (fun x => x.id)) then appendNewById cited es
    else appendNewById (cited ++ [e]) es

/-- Deduplicate candidates by entity id, keeping first occurrences. -/
def dedupCands (acc : List Cand) : List Cand → List Cand
  | [] => acc
  | c :: cs =>
    if memb c.ent.id (acc.map (fun d => d.ent.id)) then dedupCands acc cs
    else dedupCands (acc ++ [c]) cs

/-- Mutable state of one reasoning loop run: the frontier, the visited
set, the recorded steps, the cited entities (first-used order), and
whether the loop stopped early. -/
structure QState where
  frontier : List Cand
  visited : List String
  steps : List ReasoningStep
  cited : List Entity
  stopped : Bool

/-- Blended score of a hop candidate (§4.4 step 2): embedding similarity
to the question blended with the edge-type relevance weight. -/
def mkHopCand (cfg : QueryConfig) (sim : List Rat → List Rat → Rat)
    (qvec : List Rat) (idx : EmbIndex) (et : EdgeType) (f : Cand)
    (t : Entity) : Cand :=
  { ent := t
    score := cfg.alpha * entitySim idx sim qvec t.id +
      (1 - cfg.alpha) * cfg.edgeWeight et
    via := some (et, f.ent.id) }

/-- 1-hop graph neighbors of a frontier node, all edge types, both
directions (§4.4 step 2), scored. -/
def neighborCandsOf (g : Graph) (cfg : QueryConfig)
    (sim : List Rat → List Rat → Rat) (qvec : List Rat) (idx : EmbIndex)
    (f : Cand) : List Cand :=
  g.edges.filterMap (fun e =>
    if e.source == f.ent.id then
      (findNode g e.target).map (mkHopCand cfg sim qvec idx e.type f)
    else if e.target == f.ent.id then
      (findNode g e.source).map (mkHopCand cfg sim qvec idx e.type f)
    else none)

/-- All not-yet-visited scored candidates of one hop, deduplicated. -/
def hopCandidates (g : Graph) (cfg : QueryConfig)
    (sim : List Rat → List Rat → Rat) (qvec : List Rat) (idx : EmbIndex)
    (st : QState) : List Cand :=
  dedupCands []
    ((st.frontier.flatMap (neighborCandsOf g cfg sim qvec idx)).filter
      (fun c => !(memb c.ent.id st.visited)))

/-- Accept a hop's candidates: they become the next frontier, are marked
visited, one reasoning step is recorded per candidate, and a citation is
merged for each (§4.4 step 2). -/
def advance (st : QState) (accepted : List Cand) : QState :=
  { frontier := accepted
    visited := st.visited ++ accepted.map (fun c => c.ent.id)
    steps := st.steps ++ stepsFor (st.steps.length + 1) accepted
    cited := appendNewById st.cited (accepted.map (fun c => c.ent))
    stopped := st.stopped }

/-- Modelled from the spec (§4.4 steps 2–3): the hop loop.  Each hop keeps
the top-`W` scoring unvisited candidates as the next frontier; the loop
stops early when no new candidate exists or the newest frontier's best
score falls below the minimum-relevance threshold (the high-confidence
stop of §4.4 is the special case in which no new node passes the
threshold), and otherwise runs until the hop budget is exhausted. -/
def qloop (g : Graph) (cfg : QueryConfig)
    (sim : List Rat → List Rat → Rat) (qvec : List Rat) (idx : EmbIndex) :
    Nat → QState → QState
  | 0, st => st
  | Nat.succ h, st =>
    match selectTop cfg.W (hopCandidates g cfg sim qvec idx st) with
    | [] => { st with stopped := true }
    | best :: rest =>
      if best.score < cfg.minRelevance then { st with stopped := true }
      else qloop g cfg sim qvec idx h (advance st (best :: rest))

/-- The loop state seeded from the similarity search (§4.4 step 1): one
reasoning step and one citation per seed. -/
def seedState (seeds : List Cand) : QState :=
  { frontier := seeds
    visited := seeds.map (fun c => c.ent.id)
    steps := stepsFor 1 seeds
    cited := appendNewById [] (seeds.map (fun c => c.ent))
    stopped := false }

/-- Accumulated evidence handed to the Answer Composer (§4.4 step 4). -/
structure QOutcome where
  steps : List ReasoningStep
  cited : List Entity
  grounded : Bool
  stopped : Bool

/-- The seed candidate pool (§4.4 step 1): one scored candidate per
embedding record whose entity exists in the graph snapshot. -/
def seedPool (g : Graph) (idx : EmbIndex)
    (sim : List Rat → List Rat → Rat) (qvec : List Rat) : List Cand :=
  idx.records.filterMap (fun r =>
    (findNode g r.entityId).map (fun e =>
      { ent := e, score := sim qvec r.vector, via := none }))

/-- The loop state after running the hop loop from the seeded state. -/
def finalState (g : Graph) (cfg : QueryConfig)
    (sim : List Rat → List Rat → Rat) (qvec : List Rat)
    (idx : EmbIndex) : QState :=
  qloop g cfg sim qvec idx cfg.H
    (seedState (selectTop cfg.W (seedPool g idx sim qvec)))

/-- Modelled from the spec (§4.4): the retrieval-reasoning run.  Seeds are
the top-`W` entities by similarity; when no seed passes the
minimum-relevance threshold the question cannot be grounded and no entity
is cited (§4.5), otherwise the hop loop runs on the seeded state. -/
def runQuery (cfg : QueryConfig) (sim : List Rat → List Rat → Rat)
    (g : Graph) (idx : EmbIndex) (qvec : List Rat) : QOutcome :=
  if (selectTop cfg.W (seedPool g idx sim qvec)).all
      (fun c => decide (c.score < cfg.minRelevance)) then
    { steps := stepsFor 1 (selectTop cfg.W (seedPool g idx sim qvec)),
      cited := [], grounded := false, stopped := true }
  else
    { steps := (finalState g cfg sim qvec idx).steps
      cited := (finalState g cfg sim qvec idx).cited
      grounded := true
      stopped := (finalState g cfg sim qvec idx).stopped }

/-- Clamp to the unit interval (§4.5). -/
def clamp01 (x : Rat) : Rat := max 0 (min 1 x)

/-- Mean of a list of rationals, 0 for the empty list. -/
def mean : List Rat → Rat
  | [] => 0
  | xs => xs.sum / (xs.length : Rat)

/-- Coverage factor (§4.5): the fraction of the six distinct entity types
touched by the cited entities. -/
def typeCoverage (cited : List Entity) : Rat :=
  (((cited.map (fun e => e.type)).dedup.length : Nat) : Rat) / 6

/-- A citation derived from a visited entity (§3): its exact file/line
range, the embedded text as content, and its node type and name. -/
def mkCitation (idx : EmbIndex) (e : Entity) : Citation :=
  { file_path := e.file_path
    start_line := e.start_line
    end_line := e.end_line
    content :=
      match idx.records.find? (fun r => r.entityId == e.id) with
      | some r => r.text
      | none => ""
    node_type := some (entityTypeName e.type)
    node_name := some e.name }

/-- Modelled from the spec (§4.5): the Answer Composer — citations in
first-used order deduplicated by entity id, confidence = mean similarity
of cited entities × early-stop penalty × type coverage, clamped to
[0,1]; an ungrounded question yields the explanatory answer with zero
citations. -/
def compose (cfg : QueryConfig) (sim : List Rat → List Rat → Rat)
    (qvec : List Rat) (idx : EmbIndex) (question : String)
    (o : QOutcome) : QueryResponse :=
  let sims := o.cited.map (fun e => entitySim idx sim qvec e.id)
  let penalty : Rat := if o.stopped then cfg.stopPenalty else 1
  { answer :=
      if o.grounded then
        "Answer to " ++ question ++ " from " ++
          toString o.cited.length ++ " cited entities"
      else
        "The question " ++ question ++ " could not be grounded in the code"
    citations := o.cited.map (mkCitation idx)
    reasoning_steps := o.steps
    confidence := clamp01 (mean sims * penalty * typeCoverage o.cited) }

/-- Query-time errors of the core surface (§6, §7). -/
inductive QueryError where
  | repositoryNotReady
  | providerError
deriving DecidableEq, Repr

/-- Modelled from the spec (§4.4, §6, §7): `query(repository_id,
question)`.  When the Graph Store or the Embedding Index for the
repository is absent, fails with `RepositoryNotReady` before any
reasoning step is recorded (the error carries the — empty — partial
trace, §7); otherwise runs the reasoning loop and composes the
response. -/
def query (cfg : QueryConfig) (sim : List Rat → List Rat → Rat)
    (store : RepoStore) (rid question : String) (qvec : List Rat) :
    Except (QueryError × List ReasoningStep) QueryResponse :=
  match lookupGraph store rid, lookupIndex store rid with
  | some g, some idx =>
    Except.ok (compose cfg sim qvec idx question (runQuery cfg sim g idx qvec))
  | _, _ => Except.error (QueryError.repositoryNotReady, [])

/-- Modelled from the spec (§8): the fixed low threshold under which the
confidence of an ungroundable question must fall. -/
def lowConfidenceThreshold : Rat := 1 / 5

/-! ### Concrete data for the spec's single-file scenario (§8) and for
witnesses. -/

/-- The module entity of the scenario file (spans the whole file). -/
def modEnt : Entity :=
  { id := entityId "main.py" "main" 1 10, type := EntityType.module,
    name := "main", file_path := "main.py", start_line := 1, end_line := 10 }

/-- The function `foo` of the scenario, lines 1–5. -/
def fooEnt : Entity :=
  { id := entityId "main.py" "foo" 1 5, type := EntityType.function,
    name := "foo", file_path := "main.py", start_line := 1, end_line := 5 }

/-- The function `bar` of the scenario, lines 7–10. -/
def barEnt : Entity :=
  { id := entityId "main.py" "bar" 7 10, type := EntityType.function,
    name := "bar", file_path := "main.py", start_line := 7, end_line := 10 }

/-- The scenario's single source file. -/
def scenarioFile : SourceFile :=
  { path := "main.py", content := "def foo: call bar / def bar",
    lang := "python" }

/-- The scenario's extractor: one module with functions `foo` (1–5) and
`bar` (7–10). -/
def scenarioExt : SourceFile → Except ParseError (List Entity) :=
  fun _ => Except.ok [modEnt, fooEnt, barEnt]

/-- The scenario's call sites: inside `foo` (line 3) a call to `bar`. -/
def scenarioSites : SourceFile → List CallSite :=
  fun _ => [{ file_path := "main.py", line := 3, callee := "bar" }]

/-- The indexing run of the scenario. -/
def scenarioRun : Except IndexError IndexResult :=
  indexPipeline scenarioExt (fun _ => []) scenarioSites [scenarioFile]

/-- The entity list of an indexing outcome (empty on error). -/
def resultEntities : Except IndexError IndexResult → List Entity
  | Except.ok r => r.snapshot.entities
  | Except.error _ => []

/-- The edge list of an indexing outcome (empty on error). -/
def resultEdges : Except IndexError IndexResult → List Edge
  | Except.ok r => r.snapshot.edges
  | Except.error _ => []

/-- The result record of the scenario run. -/
def scenarioResult : IndexResult :=
  match scenarioRun with
  | Except.ok r => r
  | Except.error _ => { snapshot := { entities := [], edges := [] },
                        embeddings := [], errors := [] }

/-- Demo entity `a`, used by witnesses. -/
def entA : Entity :=
  { id := "a", type := EntityType.function, name := "A", file_path := "f",
    start_line := 1, end_line := 2 }

/-- Demo entity `b`, used by witnesses. -/
def entB : Entity :=
  { id := "b", type := EntityType.function, name := "B", file_path := "f",
    start_line := 3, end_line := 4 }

/-- Demo graph: `a` calls `b`. -/
def g1 : Graph :=
  { entities := [entA, entB],
    edges := [{ source := "a", target := "b", type := EdgeType.calls }] }

/-- Demo embedding index for `g1`. -/
def idx1 : EmbIndex :=
  { records := [{ entityId := "a", vector := [], text := "ta" },
                { entityId := "b", vector := [], text := "tb" }] }

/-- Demo repository store holding `g1` and `idx1` under id `r`. -/
def store1 : RepoStore :=
  { graphs := [("r", g1)], indexes := [("r", idx1)] }

/-- Demo similarity: everything maximally similar. -/
def sim1 : List Rat → List Rat → Rat := fun _ _ => 1

/-- Demo similarity: nothing similar. -/
def sim0 : List Rat → List Rat → Rat := fun _ _ => 0

/-- Demo query configuration. -/
def cfg1 : QueryConfig :=
  { H := 2, W := 2, alpha := 1 / 2, minRelevance := 1 / 2,
    highConfidence := 9 / 10, stopPenalty := 4 / 5,
    edgeWeight := fun _ => 1 }

/-- The demo response of querying `store1` with `sim1`. -/
def demoResp : QueryResponse :=
  compose cfg1 sim1 [] idx1 "q" (runQuery cfg1 sim1 g1 idx1 [])

/-- The demo response of querying `store1` with `sim0` (ungroundable). -/
def demoResp0 : QueryResponse :=
  compose cfg1 sim0 [] idx1 "q" (runQuery cfg1 sim0 g1 idx1 [])

/-! ### Helper lemmas -/

lemma memb_iff {x : String} {l : List String} : memb x l = true ↔ x ∈ l := by
  constructor
  · intro h
    simp only [memb, List.any_eq_true, beq_iff_eq] at h
    obtain ⟨y, hy, hxy⟩ := h
    rw [hxy]
    exact hy
  · intro h
    simp only [memb, List.any_eq_true, beq_iff_eq]
    exact ⟨x, h, rfl⟩

lemma clamp01_nonneg (x : Rat) : 0 ≤ clamp01 x := le_max_left 0 _

lemma clamp01_le_one (x : Rat) : clamp01 x ≤ 1 :=
  max_le zero_le_one (min_le_left 1 x)

lemma set_last_eq {α : Type} (l : List α) (a : α) (h : l ≠ []) :
    l.set (l.length - 1) a = l.dropLast ++ [a] := by
  induction l with
  | nil => exact absurd rfl h
  | cons x xs ih =>
    cases xs with
    | nil => rfl
    | cons y ys =>
      have h2 : (y :: ys) ≠ [] := by simp
      have step : (x :: y :: ys).set ((x :: y :: ys).length - 1) a =
          x :: (y :: ys).set ((y :: ys).length - 1) a := by
        simp [List.set]
      rw [step, ih h2]
      rfl

/-! ### C10: the chat store's `updateLastAssistantMessage` frame -/

/-- C10: `updateLastAssistantMessage` rewrites only the last message, and
only when the list is non-empty and its last message is an assistant
message — then exactly the `content`, `citations` and `reasoning_steps`
fields are overwritten from the response (id, role and timestamp are kept,
all earlier messages are untouched); in every other case the list is
returned unchanged. -/
theorem updateLast_frame (msgs : List ChatMessage) (resp : QueryResponse) :
    (∀ last, msgs.getLast? = some last → last.role = Role.assistant →
      updateLastAssistantMessage msgs resp =
        msgs.dropLast ++
          [{ last with
              content := resp.answer
              citations := some resp.citations
              reasoning_steps := some resp.reasoning_steps }]) ∧
    (msgs.getLast? = none → updateLastAssistantMessage msgs resp = msgs) ∧
    (∀ last, msgs.getLast? = some last → last.role ≠ Role.assistant →
      updateLastAssistantMessage msgs resp = msgs) := by
  refine ⟨?_, ?_, ?_⟩
  · intro last hlast hrole
    have hne : msgs ≠ [] := by
      intro hnil
      rw [hnil] at hlast
      exact Option.noConfusion hlast
    unfold updateLastAssistantMessage
    rw [hlast]
    simp only [hrole, if_pos rfl]
    exact set_last_eq msgs _ hne
  · intro hnone
    unfold updateLastAssistantMessage
    rw [hnone]
  · intro last hlast hrole
    unfold updateLastAssistantMessage
    rw [hlast]
    simp [hrole]

/-- Demo user message. -/
def msgU : ChatMessage :=
  { id := "m1", role := Role.user, content := "hi", timestamp := 0 }

/-- Demo assistant placeholder message. -/
def msgA : ChatMessage :=
  { id := "m2", role := Role.assistant, content := "", timestamp := 1 }

/-- Demo response for the chat-store witness. -/
def respW : QueryResponse :=
  { answer := "ans", citations := [], reasoning_steps := [],
    confidence := 1 }

/-- Witness for C10 at concrete inputs: an assistant-ended list is
rewritten in place, a user-ended list is unchanged. -/
theorem updateLast_frame_witness :
    (updateLastAssistantMessage [msgU, msgA] respW =
      [msgU, msgA].dropLast ++
        [{ msgA with
            content := respW.answer
            citations := some respW.citations
            reasoning_steps := some respW.reasoning_steps }]) ∧
    updateLastAssistantMessage [msgA, msgU] respW = [msgA, msgU] :=
  ⟨(updateLast_frame [msgU, msgA] respW).1 msgA rfl rfl,
   (updateLast_frame [msgA, msgU] respW).2.2 msgU rfl (by decide)⟩

/-! ### C2: referential integrity of built snapshots -/

lemma buildSnapshot_integrity {ents : List Entity} {raw : List Edge}
    {e : Edge} (h : e ∈ (buildSnapshot ents raw).edges) :
    (∃ n ∈ ents, n.id = e.source) ∧ ∃ n ∈ ents, n.id = e.target := by
  unfold buildSnapshot at h
  simp only [List.mem_filter] at h
  obtain ⟨-, hcond⟩ := h
  simp only [Bool.and_eq_true, hasEntity, List.any_eq_true,
    beq_iff_eq] at hcond
  exact ⟨hcond.1.1, hcond.1.2⟩

/-- C2: every edge of a snapshot produced by an indexing run has both its
source and target resolving to entities present in the same snapshot —
dangling edges are dropped at build time. -/
theorem snapshot_referential_integrity
    (ext : SourceFile → Except ParseError (List Entity))
    (embedText : String → List Rat)
    (callSitesOf : SourceFile → List CallSite)
    (files : List SourceFile) (r : IndexResult)
    (h : indexPipeline ext embedText callSitesOf files = Except.ok r) :
    ∀ e ∈ r.snapshot.edges,
      (∃ n ∈ r.snapshot.entities, n.id = e.source) ∧
      ∃ n ∈ r.snapshot.entities, n.id = e.target := by
  intro e he
  unfold indexPipeline at h
  split at h
  · exact Except.noConfusion h
  · have hr := (Except.ok.injEq _ _).mp h
    rw [← hr] at he ⊢
    exact buildSnapshot_integrity he

/-- Witness for C2 at the concrete scenario run: the `calls` edge of the
scenario snapshot has both endpoints present. -/
theorem snapshot_referential_integrity_witness :
    (∃ n ∈ scenarioResult.snapshot.entities, n.id = "main.py:foo:1-5") ∧
    ∃ n ∈ scenarioResult.snapshot.entities, n.id = "main.py:bar:7-10" :=
  snapshot_referential_integrity scenarioExt (fun _ => []) scenarioSites
    [scenarioFile] scenarioResult rfl
    { source := "main.py:foo:1-5", target := "main.py:bar:7-10",
      type := EdgeType.calls }
    (by decide)

/-! ### C3: indexing is deterministic -/

/-- C3: two indexing runs over identical content produce identical
results — the same entities (ids and spans), the same edge set, and the
same embedding vectors. -/
theorem indexing_deterministic
    (ext : SourceFile → Except ParseError (List Entity))
    (embedText : String → List Rat)
    (callSitesOf : SourceFile → List CallSite)
    (files : List SourceFile) (r1 r2 : IndexResult)
    (h1 : indexPipeline ext embedText callSitesOf files = Except.ok r1)
    (h2 : indexPipeline ext embedText callSitesOf files = Except.ok r2) :
    r1.snapshot.entities.map (fun e => (e.id, e.start_line, e.end_line)) =
      r2.snapshot.entities.map (fun e => (e.id, e.start_line, e.end_line)) ∧
    r1.snapshot.edges = r2.snapshot.edges ∧
    r1.embeddings.map (fun m => m.vector) =
      r2.embeddings.map (fun m => m.vector) := by
  have : r1 = r2 := by
    have := h1.symm.trans h2
    exact (Except.ok.injEq _ _).mp this
  rw [this]
  exact ⟨rfl, rfl, rfl⟩

/-- Witness for C3: re-running the scenario indexing yields the identical
result. -/
theorem indexing_deterministic_witness :
    scenarioResult.snapshot.entities.map
        (fun e => (e.id, e.start_line, e.end_line)) =
      scenarioResult.snapshot.entities.map
        (fun e => (e.id, e.start_line, e.end_line)) ∧
    scenarioResult.snapshot.edges = scenarioResult.snapshot.edges ∧
    scenarioResult.embeddings.map (fun m => m.vector) =
      scenarioResult.embeddings.map (fun m => m.vector) :=
  indexing_deterministic scenarioExt (fun _ => []) scenarioSites
    [scenarioFile] scenarioResult scenarioResult rfl rfl

/-! ### C5: RepositoryNotReady precedes any reasoning step -/

/-- C5: querying a repository whose graph snapshot or embedding index is
absent fails with `RepositoryNotReady`, carrying an empty reasoning
trace — the failure precedes any reasoning step. -/
theorem query_not_ready (cfg : QueryConfig)
    (sim : List Rat → List Rat → Rat) (store : RepoStore)
    (rid question : String) (qvec : List Rat)
    (h : lookupGraph store rid = none ∨ lookupIndex store rid = none) :
    query cfg sim store rid question qvec =
      Except.error (QueryError.repositoryNotReady, []) := by
  unfold query
  rcases h with h | h
  · rw [h]
  · rw [h]
    cases lookupGraph store rid <;> rfl

/-- Witness for C5: querying an empty store fails with
`RepositoryNotReady` and an empty trace. -/
theorem query_not_ready_witness :
    query cfg1 sim1 { graphs := [], indexes := [] } "r" "q" [] =
      Except.error (QueryError.repositoryNotReady, []) :=
  query_not_ready cfg1 sim1 { graphs := [], indexes := [] } "r" "q" []
    (Or.inl rfl)

/-! ### C6: one bad file never aborts the run -/

/-- The entities successfully extracted from a list of files (failing
files contribute nothing). -/
def okEntities (ext : SourceFile → Except ParseError (List Entity))
    (fs : List SourceFile) : List Entity :=
  fs.flatMap (fun f =>
    match ext f with
    | Except.ok es => es
    | Except.error _ => [])

lemma extractAll_all_ok (ext : SourceFile → Except ParseError (List Entity))
    (fs : List SourceFile) (h : ∀ f ∈ fs, ∃ es, ext f = Except.ok es) :
    extractAll ext fs = (okEntities ext fs, []) := by
  induction fs with
  | nil => rfl
  | cons f fs ih =>
    obtain ⟨es, he⟩ := h f (List.mem_cons_self f fs)
    have ih2 := ih (fun f hf => h f (List.mem_cons_of_mem _ hf))
    simp only [extractAll, okEntities, List.flatMap_cons, he, ih2]

lemma extractAll_append (ext : SourceFile → Except ParseError (List Entity))
    (fs1 fs2 : List SourceFile) :
    extractAll ext (fs1 ++ fs2) =
      ((extractAll ext fs1).1 ++ (extractAll ext fs2).1,
       (extractAll ext fs1).2 ++ (extractAll ext fs2).2) := by
  induction fs1 with
  | nil => rfl
  | cons f fs ih =>
    cases hef : ext f with
    | ok es =>
      simp only [List.cons_append, extractAll, hef, List.append_eq]
      rw [ih]
      simp [List.append_assoc]
    | error pe =>
      simp only [List.cons_append, extractAll, hef, List.append_eq]
      rw [ih]

/-- C6: an indexing run in which exactly one file fails to parse and the
remaining files are valid completes successfully, with all entities of the
valid files present and exactly the one `ParseError` recorded. -/
theorem single_parse_failure
    (ext : SourceFile → Except ParseError (List Entity))
    (embedText : String → List Rat)
    (callSitesOf : SourceFile → List CallSite)
    (fs1 fs2 : List SourceFile) (bad : SourceFile) (pe : ParseError)
    (hok : ∀ f ∈ fs1 ++ fs2, ∃ es, ext f = Except.ok es)
    (hbad : ext bad = Except.error pe) :
    ∃ r, indexPipeline ext embedText callSitesOf (fs1 ++ bad :: fs2) =
        Except.ok r ∧
      r.errors = [pe] ∧
      r.snapshot.entities = okEntities ext fs1 ++ okEntities ext fs2 := by
  have h1 : ∀ f ∈ fs1, ∃ es, ext f = Except.ok es := fun f hf =>
    hok f (List.mem_append_left _ hf)
  have h2 : ∀ f ∈ fs2, ∃ es, ext f = Except.ok es := fun f hf =>
    hok f (List.mem_append_right _ hf)
  have hext : extractAll ext (fs1 ++ bad :: fs2) =
      (okEntities ext fs1 ++ okEntities ext fs2, [pe]) := by
    rw [extractAll_append]
    rw [extractAll_all_ok ext fs1 h1]
    have hb : extractAll ext (bad :: fs2) = (okEntities ext fs2, [pe]) := by
      simp only [extractAll, hbad, extractAll_all_ok ext fs2 h2]
    rw [hb]
    rfl
  have hne : (fs1 ++ bad :: fs2).isEmpty = false := by
    cases fs1 <;> rfl
  have key : indexPipeline ext embedText callSitesOf (fs1 ++ bad :: fs2) =
      Except.ok
        { snapshot :=
            buildSnapshot (okEntities ext fs1 ++ okEntities ext fs2)
              (containsEdges (okEntities ext fs1 ++ okEntities ext fs2) ++
                callEdges (okEntities ext fs1 ++ okEntities ext fs2)
                  ((fs1 ++ bad :: fs2).flatMap callSitesOf))
          embeddings :=
            (okEntities ext fs1 ++ okEntities ext fs2).map (fun e =>
              { entityId := e.id, vector := embedText (entityText e),
                text := entityText e })
          errors := [pe] } := by
    unfold indexPipeline
    simp only [hne, Bool.false_eq_true, if_false, hext]
  exact ⟨_, key, rfl, rfl⟩

/-- Witness extractor for C6: fails exactly on `bad.py`. -/
def ext6 : SourceFile → Except ParseError (List Entity) :=
  fun f =>
    if f.path == "bad.py" then
      Except.error { file_path := "bad.py", message := "syntax" }
    else Except.ok [{ id := f.path, type := EntityType.module,
                      name := f.path, file_path := f.path,
                      start_line := 1, end_line := 1 }]

/-- Witness good file for C6. -/
def goodFile : SourceFile := { path := "good.py", content := "x", lang := "python" }

/-- Witness bad file for C6. -/
def badFile : SourceFile := { path := "bad.py", content := "(", lang := "python" }

/-- Witness for C6 at concrete inputs: one bad file among good ones leaves
the good entities and exactly one recorded error. -/
theorem single_parse_failure_witness :
    ∃ r, indexPipeline ext6 (fun _ => []) (fun _ => [])
        ([goodFile] ++ badFile :: []) = Except.ok r ∧
      r.errors = [{ file_path := "bad.py", message := "syntax" }] ∧
      r.snapshot.entities = okEntities ext6 [goodFile] ++ okEntities ext6 [] :=
  single_parse_failure ext6 (fun _ => []) (fun _ => []) [goodFile] [] badFile
    { file_path := "bad.py", message := "syntax" }
    (by
      intro f hf
      simp only [List.append_nil, List.mem_singleton] at hf
      rw [hf]
      exact ⟨_, rfl⟩)
    rfl

/-! ### C9: the single-file scenario -/

/-- Counterexample to C9 as stated: the scenario indexing run yields 3
entities (the module, `foo` and `bar`), not 2 — and with only 2 entities
the claimed `contains` edges from the module could not exist in the same
snapshot. -/
theorem scenario_not_two_entities :
    (resultEntities scenarioRun).length = 3 ∧
    (resultEntities scenarioRun).length ≠ 2 := by
  exact ⟨rfl, by decide⟩

/-- C9 (amended): the scenario run yields exactly 3 entities — the module
and the two functions — one `contains` edge from the module to each
function, and exactly one `calls` edge from `foo` to `bar`. -/
theorem scenario_amended :
    resultEntities scenarioRun = [modEnt, fooEnt, barEnt] ∧
    resultEdges scenarioRun =
      [{ source := modEnt.id, target := fooEnt.id, type := EdgeType.contains },
       { source := modEnt.id, target := barEnt.id, type := EdgeType.contains },
       { source := fooEnt.id, target := barEnt.id, type := EdgeType.calls }] :=
  ⟨rfl, rfl⟩

/-! ### C7: neighbor lookup — depth 0 and no revisiting -/

lemma mem_dedupIds : ∀ {l : List String} {x : String},
    x ∈ dedupIds l ↔ x ∈ l := by
  intro l
  induction l with
  | nil => intro x; simp [dedupIds]
  | cons y ys ih =>
    intro x
    by_cases h : memb y ys = true
    · have hy : y ∈ ys := memb_iff.mp h
      simp only [dedupIds, if_pos h, List.mem_cons, ih]
      constructor
      · exact Or.inr
      · rintro (rfl | hx)
        · exact hy
        · exact hx
    · simp only [dedupIds, if_neg h, List.mem_cons, ih]

lemma mem_bfsNext {g : Graph} {ets : List EdgeType} {dir : Direction}
    {frontier visited : List String} {x : String}
    (h : x ∈ bfsNext g ets dir frontier visited) : x ∉ visited := by
  unfold bfsNext at h
  rw [mem_dedupIds] at h
  simp only [List.mem_filter, Bool.and_eq_true, Bool.not_eq_true'] at h
  obtain ⟨-, h1, -⟩ := h
  intro hx
  rw [memb_iff.mpr hx] at h1
  exact Bool.noConfusion h1

lemma bfsAux_avoids (g : Graph) (ets : List EdgeType) (dir : Direction) :
    ∀ (fuel : Nat) (frontier visited : List String),
      ∀ p ∈ bfsAux g ets dir fuel frontier visited, ∀ x ∈ p.1,
        x ∉ visited := by
  intro fuel
  induction fuel with
  | zero =>
    intro frontier visited p hp
    simp [bfsAux] at hp
  | succ k ih =>
    intro frontier visited p hp x hx
    unfold bfsAux at hp
    by_cases he : (bfsNext g ets dir frontier visited).isEmpty = true
    · rw [if_pos he] at hp
      exact absurd hp (List.not_mem_nil p)
    · rw [if_neg he] at hp
      rcases List.mem_cons.mp hp with rfl | htail
      · exact mem_bfsNext hx
      · intro hxv
        exact ih _ _ p htail x hx (List.mem_append_left _ hxv)

lemma bfsAux_pairwise (g : Graph) (ets : List EdgeType) (dir : Direction) :
    ∀ (fuel : Nat) (frontier visited : List String),
      List.Pairwise (fun p q => ∀ x ∈ p.1, x ∉ q.1)
        (bfsAux g ets dir fuel frontier visited) := by
  intro fuel
  induction fuel with
  | zero => intro frontier visited; simp [bfsAux]
  | succ k ih =>
    intro frontier visited
    unfold bfsAux
    by_cases he : (bfsNext g ets dir frontier visited).isEmpty = true
    · rw [if_pos he]
      exact List.Pairwise.nil
    · rw [if_neg he]
      refine List.Pairwise.cons (fun q hq x hx hxq => ?_) (ih _ _)
      exact bfsAux_avoids g ets dir k _ _ q hq x hxq
        (List.mem_append_right _ hx)

lemma neighborsLayers_pairwise (g : Graph) (ets : List EdgeType)
    (dir : Direction) (st : Entity) (depth : Nat) :
    List.Pairwise (fun p q => ∀ x ∈ p, x ∉ q)
      (neighborsLayers g ets dir st depth) := by
  unfold neighborsLayers
  refine List.Pairwise.cons (fun q hq x hx hxq => ?_) ?_
  · rw [List.mem_map] at hq
    obtain ⟨p, hp, rfl⟩ := hq
    exact bfsAux_avoids g ets dir depth [st.id] [st.id] p hp x hxq hx
  · rw [List.pairwise_map]
    exact bfsAux_pairwise g ets dir depth [st.id] [st.id]

/-- C7: `neighbors` with `depth = 0` returns exactly the queried node and
no edges; and a node returned at a breadth-first layer `d` is never
returned again at any deeper layer `k` (the visited set prevents
revisits). -/
theorem neighbors_depth_zero_no_revisit :
    (∀ (g : Graph) (nid : String) (ets : List EdgeType) (dir : Direction)
        (st : Entity), findNode g nid = some st →
      neighborsOp g nid ets dir 0 = some ([st], [])) ∧
    (∀ (g : Graph) (ets : List EdgeType) (dir : Direction) (st : Entity)
        (depth d k : Nat) (x : String), d < k →
      x ∈ (neighborsLayers g ets dir st depth).getD d [] →
      x ∉ (neighborsLayers g ets dir st depth).getD k []) := by
  constructor
  · intro g nid ets dir st h
    have hid : st.id = nid := by
      have h2 : g.entities.find? (fun e => e.id == nid) = some st := h
      have hfind := List.find?_some h2
      exact beq_iff_eq.mp hfind
    unfold neighborsOp
    rw [h]
    have h0 : neighborsLayers g ets dir st 0 = [[st.id]] := rfl
    simp only [Option.map_some', h0, List.flatten, List.append_nil,
      List.filterMap, hid, h, bfsAux, List.flatMap_nil]
  · intro g ets dir st depth d k x hdk hxd
    intro hxk
    by_cases hk : k < (neighborsLayers g ets dir st depth).length
    · have hd : d < (neighborsLayers g ets dir st depth).length :=
        lt_trans hdk hk
      have hpw := neighborsLayers_pairwise g ets dir st depth
      rw [List.pairwise_iff_getElem] at hpw
      have hrel := hpw d k hd hk hdk
      rw [List.getD_eq_getElem _ _ hd] at hxd
      rw [List.getD_eq_getElem _ _ hk] at hxk
      exact hrel x hxd hxk
    · rw [List.getD_eq_default _ _ (Nat.le_of_not_lt hk)] at hxk
      exact List.not_mem_nil x hxk

/-- Witness for C7 at the demo graph `g1`: depth 0 from `a` returns only
`a` and no edges, and the depth-0 layer node `a` does not reappear in
layer 1. -/
theorem neighbors_depth_zero_no_revisit_witness :
    neighborsOp g1 "a" [EdgeType.calls] Direction.dBoth 0 =
      some ([entA], []) ∧
    "a" ∉ (neighborsLayers g1 [EdgeType.calls] Direction.dBoth
      entA 1).getD 1 [] :=
  ⟨neighbors_depth_zero_no_revisit.1 g1 "a" [EdgeType.calls]
      Direction.dBoth entA rfl,
   neighbors_depth_zero_no_revisit.2 g1 [EdgeType.calls] Direction.dBoth
      entA 1 0 1 "a" (by decide) (by decide)⟩

/-! ### C8: lexicographic tie-breaks and reproducible traces -/

/-- C8: when two candidates tie in score, the one with the
lexicographically smaller entity id is preferred by the hop selection
(`selectTop`, used for seeds and for every hop of the loop): a tied
candidate with a smaller id is never dropped in favour of a kept one.
Consequently — `query` being a function of its inputs — two runs on
identical inputs produce identical responses and reasoning traces. -/
theorem tie_break_deterministic :
    (∀ (w : Nat) (cands : List Cand) (a b : Cand),
      a ∈ selectTop w cands → b ∈ cands → b.score = a.score →
      b.ent.id < a.ent.id → b ∈ selectTop w cands) ∧
    (∀ (cfg : QueryConfig) (sim : List Rat → List Rat → Rat)
        (store : RepoStore) (rid question : String) (qvec : List Rat),
      query cfg sim store rid question qvec =
        query cfg sim store rid question qvec) := by
  constructor
  · intro w cands a b ha hb hs hlt
    unfold selectTop at ha ⊢
    have hbl : b ∈ List.insertionSort candLE cands :=
      (List.perm_insertionSort candLE cands).mem_iff.mpr hb
    by_contra hbn
    have hbl2 : b ∈ (List.insertionSort candLE cands).take w ++
        (List.insertionSort candLE cands).drop w := by
      rw [List.take_append_drop]
      exact hbl
    have hbd : b ∈ (List.insertionSort candLE cands).drop w := by
      rcases List.mem_append.mp hbl2 with h | h
      · exact absurd h hbn
      · exact h
    have hsorted : List.Pairwise candLE
        ((List.insertionSort candLE cands).take w ++
          (List.insertionSort candLE cands).drop w) := by
      rw [List.take_append_drop]
      exact List.sorted_insertionSort candLE cands
    have hab : candLE a b :=
      (List.pairwise_append.mp hsorted).2.2 a ha b hbd
    rcases hab with h | ⟨-, hid⟩
    · rw [hs] at h
      exact lt_irrefl _ h
    · exact absurd hid (not_le_of_lt hlt)
  · intro cfg sim store rid question qvec
    rfl

/-- Demo candidate with the larger id `b`. -/
def candB : Cand := { ent := entB, score := 1, via := none }

/-- Demo candidate with the smaller id `a`. -/
def candA : Cand := { ent := entA, score := 1, via := none }

/-- Witness for C8 at concrete candidates: with equal scores, the
smaller-id candidate `a` is kept whenever the larger-id one is. -/
theorem tie_break_deterministic_witness :
    candA ∈ selectTop 2 [candB, candA] ∧
    query cfg1 sim1 store1 "r" "q" [] =
      query cfg1 sim1 store1 "r" "q" [] := by
  have hnLE : ¬ candLE candB candA := by
    intro h
    rcases h with h | ⟨-, hle⟩
    · exact absurd h (by simp [candA, candB])
    · rw [show candB.ent.id = "b" from rfl,
        show candA.ent.id = "a" from rfl, String.le_iff_toList_le] at hle
      exact absurd hle (by decide)
  have hsel : selectTop 2 [candB, candA] = [candA, candB] := by
    unfold selectTop
    simp only [List.insertionSort, List.orderedInsert]
    rw [if_neg hnLE]
    rfl
  have hlt : candA.ent.id < candB.ent.id := by
    rw [show candA.ent.id = "a" from rfl,
      show candB.ent.id = "b" from rfl, String.lt_iff_toList_lt]
    decide
  refine ⟨tie_break_deterministic.1 2 [candB, candA] candB candA ?_ ?_
      rfl hlt, tie_break_deterministic.2 cfg1 sim1 store1 "r" "q" []⟩
  · rw [hsel]
    exact List.mem_cons_of_mem _ (List.mem_cons_self _ _)
  · exact List.mem_cons_of_mem _ (List.mem_cons_self _ _)

/-! ### C4: confidence bounds and the ungroundable case -/

lemma query_ok_eq {cfg : QueryConfig} {sim : List Rat → List Rat → Rat}
    {store : RepoStore} {rid question : String} {qvec : List Rat}
    {resp : QueryResponse}
    (h : query cfg sim store rid question qvec = Except.ok resp) :
    ∃ g idx, lookupGraph store rid = some g ∧
      lookupIndex store rid = some idx ∧
      resp = compose cfg sim qvec idx question
        (runQuery cfg sim g idx qvec) := by
  unfold query at h
  cases hg : lookupGraph store rid with
  | none =>
    cases hi : lookupIndex store rid with
    | none => rw [hg, hi] at h; exact Except.noConfusion h
    | some idx => rw [hg, hi] at h; exact Except.noConfusion h
  | some g =>
    cases hi : lookupIndex store rid with
    | none => rw [hg, hi] at h; exact Except.noConfusion h
    | some idx =>
      rw [hg, hi] at h
      exact ⟨g, idx, rfl, rfl, ((Except.ok.injEq _ _).mp h).symm⟩

lemma mem_selectTop {w : Nat} {cands : List Cand} {c : Cand}
    (h : c ∈ selectTop w cands) : c ∈ cands :=
  (List.perm_insertionSort candLE cands).subset (List.take_subset w _ h)

lemma mem_seedPool {g : Graph} {idx : EmbIndex}
    {sim : List Rat → List Rat → Rat} {qvec : List Rat} {c : Cand}
    (h : c ∈ seedPool g idx sim qvec) :
    ∃ r ∈ idx.records, c.score = sim qvec r.vector := by
  unfold seedPool at h
  rw [List.mem_filterMap] at h
  obtain ⟨r, hr, hc⟩ := h
  cases hfn : findNode g r.entityId with
  | none => rw [hfn] at hc; exact Option.noConfusion hc
  | some e =>
    rw [hfn] at hc
    have he := (Option.some.injEq _ _).mp hc
    exact ⟨r, hr, by rw [← he]⟩

lemma runQuery_ungrounded (cfg : QueryConfig)
    (sim : List Rat → List Rat → Rat) (g : Graph) (idx : EmbIndex)
    (qvec : List Rat)
    (hlow : ∀ r ∈ idx.records, sim qvec r.vector < cfg.minRelevance) :
    (runQuery cfg sim g idx qvec).cited = [] := by
  have hall : (selectTop cfg.W (seedPool g idx sim qvec)).all
      (fun c => decide (c.score < cfg.minRelevance)) = true := by
    rw [List.all_eq_true]
    intro c hc
    obtain ⟨r, hr, hscore⟩ := mem_seedPool (mem_selectTop hc)
    exact decide_eq_true (hscore ▸ hlow r hr)
  unfold runQuery
  rw [if_pos hall]

lemma compose_cited_empty (cfg : QueryConfig)
    (sim : List Rat → List Rat → Rat) (qvec : List Rat) (idx : EmbIndex)
    (question : String) {o : QOutcome} (h : o.cited = []) :
    (compose cfg sim qvec idx question o).citations = [] ∧
    (compose cfg sim qvec idx question o).confidence = 0 := by
  unfold compose
  rw [h]
  refine ⟨rfl, ?_⟩
  show clamp01 (mean (List.map _ []) * _ * typeCoverage []) = 0
  simp [mean, clamp01, typeCoverage]

/-- C4: every composed response's confidence lies in [0,1]; and when no
entity of the repository's embedding index passes the minimum-relevance
threshold, the response has an empty citation list and a confidence below
the fixed low threshold — returned as a valid `Except.ok` outcome. -/
theorem confidence_bounds_ungroundable (cfg : QueryConfig)
    (sim : List Rat → List Rat → Rat) (store : RepoStore)
    (rid question : String) (qvec : List Rat) (resp : QueryResponse)
    (h : query cfg sim store rid question qvec = Except.ok resp) :
    (0 ≤ resp.confidence ∧ resp.confidence ≤ 1) ∧
    ∀ idx, lookupIndex store rid = some idx →
      (∀ r ∈ idx.records, sim qvec r.vector < cfg.minRelevance) →
      resp.citations = [] ∧ resp.confidence < lowConfidenceThreshold := by
  obtain ⟨g, idx, hg, hi, hr⟩ := query_ok_eq h
  constructor
  · rw [hr]
    exact ⟨clamp01_nonneg _, clamp01_le_one _⟩
  · intro idx2 hidx hlow
    have hidx2 : idx = idx2 := by
      rw [hidx] at hi
      exact ((Option.some.injEq _ _).mp hi).symm
    subst hidx2
    have hcited := runQuery_ungrounded cfg sim g idx qvec hlow
    obtain ⟨hc, hconf⟩ :=
      compose_cited_empty cfg sim qvec idx question hcited
    rw [hr]
    refine ⟨hc, ?_⟩
    rw [hconf]
    norm_num [lowConfidenceThreshold]

/-- Witness for C4 at the demo store with an all-dissimilar similarity:
confidence is in [0,1], the citation list is empty, and confidence is
below the low threshold. -/
theorem confidence_bounds_ungroundable_witness :
    (0 ≤ demoResp0.confidence ∧ demoResp0.confidence ≤ 1) ∧
    demoResp0.citations = [] ∧
    demoResp0.confidence < lowConfidenceThreshold := by
  have h := confidence_bounds_ungroundable cfg1 sim0 store1 "r" "q" []
    demoResp0 rfl
  exact ⟨h.1, h.2 idx1 rfl (fun r hr => by norm_num [sim0, cfg1])⟩

/-! ### C1: every citation corresponds to a visited entity -/

/-- Every cited entity is covered by a recorded reasoning step that
visited it. -/
def citedCovered (steps : List ReasoningStep) (cited : List Entity) : Prop :=
  ∀ e ∈ cited, ∃ s ∈ steps, s.node_visited = some e.id

lemma stepsFor_covers : ∀ (cands : List Cand) (n : Nat) (c : Cand),
    c ∈ cands → ∃ s ∈ stepsFor n cands, s.node_visited = some c.ent.id := by
  intro cands
  induction cands with
  | nil => intro n c hc; exact absurd hc (List.not_mem_nil c)
  | cons d ds ih =>
    intro n c hc
    rcases List.mem_cons.mp hc with rfl | hc
    · exact ⟨_, List.mem_cons_self _ _, rfl⟩
    · obtain ⟨s, hs, hv⟩ := ih (n + 1) c hc
      exact ⟨s, List.mem_cons_of_mem _ hs, hv⟩

lemma appendNewById_sub : ∀ (es cited : List Entity) (x : Entity),
    x ∈ appendNewById cited es → x ∈ cited ∨ x ∈ es := by
  intro es
  induction es with
  | nil => intro cited x hx; exact Or.inl hx
  | cons e es ih =>
    intro cited x hx
    unfold appendNewById at hx
    by_cases hm : memb e.id (cited.map (fun y => y.id)) = true
    · rw [if_pos hm] at hx
      rcases ih cited x hx with h | h
      · exact Or.inl h
      · exact Or.inr (List.mem_cons_of_mem _ h)
    · rw [if_neg hm] at hx
      rcases ih (cited ++ [e]) x hx with h | h
      · rcases List.mem_append.mp h with h2 | h2
        · exact Or.inl h2
        · exact Or.inr (List.mem_cons.mpr
            (Or.inl (List.mem_singleton.mp h2)))
      · exact Or.inr (List.mem_cons_of_mem _ h)

lemma advance_covers {st : QState} {acc : List Cand}
    (h : citedCovered st.steps st.cited) :
    citedCovered (advance st acc).steps (advance st acc).cited := by
  intro e he
  simp only [advance] at he ⊢
  rcases appendNewById_sub _ _ _ he with h1 | h1
  · obtain ⟨s, hs, hv⟩ := h e h1
    exact ⟨s, List.mem_append_left _ hs, hv⟩
  · rw [List.mem_map] at h1
    obtain ⟨c, hc, rfl⟩ := h1
    obtain ⟨s, hs, hv⟩ := stepsFor_covers acc (st.steps.length + 1) c hc
    exact ⟨s, List.mem_append_right _ hs, hv⟩

lemma qloop_covers (g : Graph) (cfg : QueryConfig)
    (sim : List Rat → List Rat → Rat) (qvec : List Rat) (idx : EmbIndex) :
    ∀ (fuel : Nat) (st : QState), citedCovered st.steps st.cited →
      citedCovered (qloop g cfg sim qvec idx fuel st).steps
        (qloop g cfg sim qvec idx fuel st).cited := by
  intro fuel
  induction fuel with
  | zero => intro st h; exact h
  | succ k ih =>
    intro st h
    cases hacc : selectTop cfg.W (hopCandidates g cfg sim qvec idx st) with
    | nil =>
      simp only [qloop, hacc]
      exact h
    | cons best rest =>
      simp only [qloop, hacc]
      by_cases hb : best.score < cfg.minRelevance
      · rw [if_pos hb]
        exact h
      · rw [if_neg hb]
        exact ih _ (advance_covers h)

lemma seedState_covers (seeds : List Cand) :
    citedCovered (seedState seeds).steps (seedState seeds).cited := by
  intro e he
  simp only [seedState] at he ⊢
  rcases appendNewById_sub _ _ _ he with h | h
  · exact absurd h (List.not_mem_nil e)
  · rw [List.mem_map] at h
    obtain ⟨c, hc, rfl⟩ := h
    exact stepsFor_covers seeds 1 c hc

lemma runQuery_covers (cfg : QueryConfig)
    (sim : List Rat → List Rat → Rat) (g : Graph) (idx : EmbIndex)
    (qvec : List Rat) :
    citedCovered (runQuery cfg sim g idx qvec).steps
      (runQuery cfg sim g idx qvec).cited := by
  unfold runQuery
  by_cases hall : (selectTop cfg.W (seedPool g idx sim qvec)).all
      (fun c => decide (c.score < cfg.minRelevance)) = true
  · rw [if_pos hall]
    intro e he
    exact absurd he (List.not_mem_nil e)
  · rw [if_neg hall]
    intro e he
    exact qloop_covers g cfg sim qvec idx cfg.H _
      (seedState_covers _) e he

/-- C1: every citation of a successful query response is derived from an
entity that some reasoning step of the same response visited — no
citation is synthesized for an unvisited entity. -/
theorem citations_from_visited (cfg : QueryConfig)
    (sim : List Rat → List Rat → Rat) (store : RepoStore)
    (rid question : String) (qvec : List Rat) (resp : QueryResponse)
    (h : query cfg sim store rid question qvec = Except.ok resp) :
    ∀ c ∈ resp.citations, ∃ e : Entity,
      (∃ s ∈ resp.reasoning_steps, s.node_visited = some e.id) ∧
      ∃ idx, lookupIndex store rid = some idx ∧ c = mkCitation idx e := by
  obtain ⟨g, idx, hg, hi, hr⟩ := query_ok_eq h
  intro c hc
  rw [hr] at hc ⊢
  have hcit : (compose cfg sim qvec idx question
      (runQuery cfg sim g idx qvec)).citations =
      (runQuery cfg sim g idx qvec).cited.map (mkCitation idx) := rfl
  rw [hcit, List.mem_map] at hc
  obtain ⟨e, he, rfl⟩ := hc
  obtain ⟨s, hs, hv⟩ := runQuery_covers cfg sim g idx qvec e he
  exact ⟨e, ⟨s, hs, hv⟩, idx, hi, rfl⟩

/-- Witness for C1 at the demo store: the grounded demo query succeeds and
each of its citations corresponds to a visited entity. -/
theorem citations_from_visited_witness :
    query cfg1 sim1 store1 "r" "q" [] = Except.ok demoResp ∧
    ∀ c ∈ demoResp.citations, ∃ e : Entity,
      (∃ s ∈ demoResp.reasoning_steps, s.node_visited = some e.id) ∧
      ∃ idx, lookupIndex store1 "r" = some idx ∧ c = mkCitation idx e :=
  ⟨rfl, citations_from_visited cfg1 sim1 store1 "r" "q" [] demoResp rfl⟩

end CodeGraph
